import Mathlib

/-!
Shallow embedding of the staged replay scheduler implemented in
src/cli/fossilize_replay.cpp (struct ThreadedReplayer together with main).

Handles are modelled as Nat; a slot of type Option Handle uses none for
VK_NULL_HANDLE.  Vulkan create calls are modelled by oracles: an oracle
returns none when the underlying call fails, and some result on success.
Wall-clock durations measured around a create call are part of the oracle
result (a nanosecond count).  The concurrent queue of the replayer is
modelled twice, at two levels of abstraction: the enqueue facade acts on an
explicit ReplayerState, and the interleaved execution of driver and workers
is modelled by traces of atomic steps with a validity predicate that
captures the mutex/condition-variable discipline of the source.
-/

namespace Fossilize

/-- Content hash; Fossilize::Hash is a 64-bit identifier, modelled as Nat. -/
abbrev Hash := Nat

/-- Opaque device handle; none in an Option Handle slot models VK_NULL_HANDLE. -/
abbrev Handle := Nat

/-- Resource categories of the replayer (the ResourceTag enum as used by
src/cli/fossilize_replay.cpp). -/
inductive ResourceTag where
  | application_info
  | sampler
  | descriptor_set_layout
  | pipeline_layout
  | render_pass
  | shader_module
  | graphics_pipeline
  | compute_pipeline

deriving instance DecidableEq for ResourceTag

/-- Playback order walked by main (fossilize_replay.cpp lines 684-693). -/
def playback_order : List ResourceTag :=
  [ResourceTag.application_info, ResourceTag.shader_module, ResourceTag.sampler,
   ResourceTag.descriptor_set_layout, ResourceTag.pipeline_layout, ResourceTag.render_pass,
   ResourceTag.graphics_pipeline, ResourceTag.compute_pipeline]

/-- Graphics filter predicate of enqueue_create_graphics_pipeline (line 514):
(filter_graphics.empty() and filter_compute.empty()) or filter_graphics.count(hash). -/
def graphicsFilterPass (filter_graphics filter_compute : List Hash) (hash : Hash) : Bool :=
  (filter_graphics.isEmpty && filter_compute.isEmpty) || filter_graphics.contains hash

/-- Compute filter predicate of enqueue_create_compute_pipeline (line 488):
(filter_compute.empty() and filter_graphics.empty()) or filter_compute.count(hash). -/
def computeFilterPass (filter_graphics filter_compute : List Hash) (hash : Hash) : Bool :=
  (filter_compute.isEmpty && filter_graphics.isEmpty) || filter_compute.contains hash

/-- State touched by the enqueue facade: the shared work queue, queued_count, and
the key sets of the per-category registries that operator[] touches on enqueue. -/
structure ReplayerState where
  queue : List (ResourceTag × Hash)
  queued_count : Nat
  shader_modules : List Hash
  graphics_pipelines : List Hash
  compute_pipelines : List Hash

deriving instance DecidableEq for ReplayerState

/-- ReplayerState at construction: empty queue, zero counter, empty registries. -/
def initialReplayerState : ReplayerState :=
  { queue := [], queued_count := 0, shader_modules := [], graphics_pipelines := [],
    compute_pipelines := [] }

/-- Effect of unordered_map operator[] on the key set: get-or-insert the key. -/
def registerSlot (keys : List Hash) (hash : Hash) : List Hash :=
  if keys.contains hash then keys else keys ++ [hash]

/-- Result of one deferred enqueue call: the returned Bool, the updated shared
state, and the content of the caller-owned output slot after the call. -/
structure EnqueueOutcome where
  ret : Bool
  state : ReplayerState
  output : Option Handle

deriving instance DecidableEq for EnqueueOutcome

/-- ThreadedReplayer::enqueue_create_shader_module (lines 465-484): always builds
a work item, registers the registry slot via operator[], pushes the item and
increments queued_count, and returns true.  The output slot is not written. -/
def enqueue_create_shader_module (st : ReplayerState) (hash : Hash)
    (out0 : Option Handle) : EnqueueOutcome :=
  { ret := true
    state := { st with
      shader_modules := registerSlot st.shader_modules hash
      queue := st.queue ++ [(ResourceTag.shader_module, hash)]
      queued_count := st.queued_count + 1 }
    output := out0 }

/-- ThreadedReplayer::enqueue_create_graphics_pipeline (lines 512-536): when the
graphics filter passes, register the slot, push a work item and bump
queued_count; otherwise set the output slot to VK_NULL_HANDLE.  Returns true in
both branches. -/
def enqueue_create_graphics_pipeline (filter_graphics filter_compute : List Hash)
    (st : ReplayerState) (hash : Hash) (out0 : Option Handle) : EnqueueOutcome :=
  if graphicsFilterPass filter_graphics filter_compute hash then
    { ret := true
      state := { st with
        graphics_pipelines := registerSlot st.graphics_pipelines hash
        queue := st.queue ++ [(ResourceTag.graphics_pipeline, hash)]
        queued_count := st.queued_count + 1 }
      output := out0 }
  else
    { ret := true, state := st, output := none }

/-- ThreadedReplayer::enqueue_create_compute_pipeline (lines 486-510): the same
shape as the graphics case, keyed on the compute filter. -/
def enqueue_create_compute_pipeline (filter_graphics filter_compute : List Hash)
    (st : ReplayerState) (hash : Hash) (out0 : Option Handle) : EnqueueOutcome :=
  if computeFilterPass filter_graphics filter_compute hash then
    { ret := true
      state := { st with
        compute_pipelines := registerSlot st.compute_pipelines hash
        queue := st.queue ++ [(ResourceTag.compute_pipeline, hash)]
        queued_count := st.queued_count + 1 }
      output := out0 }
  else
    { ret := true, state := st, output := none }

/-- State transition of one graphics-pipeline record on the shared state. -/
def graphicsEnqueueStep (filter_graphics filter_compute : List Hash)
    (st : ReplayerState) (hash : Hash) : ReplayerState :=
  (enqueue_create_graphics_pipeline filter_graphics filter_compute st hash none).state

/-- Driving a whole category of graphics-pipeline records through the enqueue
facade, as main does for the hash list of RESOURCE_GRAPHICS_PIPELINE. -/
def runGraphicsEnqueues (filter_graphics filter_compute : List Hash)
    (archive : List Hash) (st0 : ReplayerState) : ReplayerState :=
  archive.foldl (graphicsEnqueueStep filter_graphics filter_compute) st0

/-- Hashes of the queued work items carrying a given tag. -/
def queueHashesWithTag (queue : List (ResourceTag × Hash)) (tag : ResourceTag) : List Hash :=
  queue.filterMap (fun p => if p.1 = tag then some p.2 else none)

/-- Registry of one trivial category: assignment through operator[] overwrites
an existing entry for the key or appends a new one. -/
def mapInsert (m : List (Hash × Handle)) (hash : Hash) (v : Handle) : List (Hash × Handle) :=
  if m.any (fun p => p.1 = hash) then
    m.map (fun p => if p.1 = hash then (hash, v) else p)
  else
    m ++ [(hash, v)]

/-- Result of one trivial (inline) enqueue call: returned Bool, the category's
registry map, the caller's output slot, and the log of failed hashes. -/
structure TrivialOutcome where
  ret : Bool
  map : List (Hash × Handle)
  output : Option Handle
  logs : List Hash

deriving instance DecidableEq for TrivialOutcome

/-- ThreadedReplayer::enqueue_create_sampler (lines 417-427): call the create
inline; on failure log the hash and return false leaving the map alone; on
success store the handle in the map under the hash and return true.  The create
oracle is none exactly when vkCreateSampler does not return VK_SUCCESS. -/
def enqueue_create_sampler (create : Option Handle) (index : Hash)
    (m : List (Hash × Handle)) (out0 : Option Handle) (logs : List Hash) : TrivialOutcome :=
  match create with
  | none => { ret := false, map := m, output := out0, logs := logs ++ [index] }
  | some v => { ret := true, map := mapInsert m index v, output := some v, logs := logs }

/-- ThreadedReplayer::enqueue_create_descriptor_set_layout (lines 429-439); the
same inline create-and-register shape as the sampler case. -/
def enqueue_create_descriptor_set_layout (create : Option Handle) (index : Hash)
    (m : List (Hash × Handle)) (out0 : Option Handle) (logs : List Hash) : TrivialOutcome :=
  match create with
  | none => { ret := false, map := m, output := out0, logs := logs ++ [index] }
  | some v => { ret := true, map := mapInsert m index v, output := some v, logs := logs }

/-- ThreadedReplayer::enqueue_create_pipeline_layout (lines 441-451). -/
def enqueue_create_pipeline_layout (create : Option Handle) (index : Hash)
    (m : List (Hash × Handle)) (out0 : Option Handle) (logs : List Hash) : TrivialOutcome :=
  match create with
  | none => { ret := false, map := m, output := out0, logs := logs ++ [index] }
  | some v => { ret := true, map := mapInsert m index v, output := some v, logs := logs }

/-- ThreadedReplayer::enqueue_create_render_pass (lines 453-463). -/
def enqueue_create_render_pass (create : Option Handle) (index : Hash)
    (m : List (Hash × Handle)) (out0 : Option Handle) (logs : List Hash) : TrivialOutcome :=
  match create with
  | none => { ret := false, map := m, output := out0, logs := logs ++ [index] }
  | some v => { ret := true, map := mapInsert m index v, output := some v, logs := logs }

/-- Step of the driver over one sampler record: the registry map and log after
the inline enqueue, with a count of processed records. -/
def samplerReplayStep (acc : List (Hash × Handle) × List Hash × Nat)
    (r : Option Handle × Hash) : List (Hash × Handle) × List Hash × Nat :=
  let o := enqueue_create_sampler r.1 r.2 acc.1 none acc.2.1
  (o.map, o.logs, acc.2.2 + 1)

/-- Driving a list of sampler records through the inline enqueue, counting how
many records the driver has processed; the driver does not abort on a failed
create, so every record is processed. -/
def runSamplerEnqueues (records : List (Option Handle × Hash))
    (m : List (Hash × Handle)) (logs : List Hash) :
    List (Hash × Handle) × List Hash × Nat :=
  records.foldl samplerReplayStep (m, logs, 0)

/-- Size of VkPhysicalDeviceProperties::pipelineCacheUUID in bytes. -/
def VK_UUID_SIZE : Nat := 16

/-- Vulkan pipeline cache header version constant. -/
def VK_PIPELINE_CACHE_HEADER_VERSION_ONE : Nat := 1

/-- Little-endian 32-bit read from a byte blob, as the read_le lambda of
validate_pipeline_cache_header (lines 289-294). -/
def read_le (blob : List Nat) (offset : Nat) : Nat :=
  blob.getD offset 0 |||
  (blob.getD (offset + 1) 0 <<< 8) |||
  (blob.getD (offset + 2) 0 <<< 16) |||
  (blob.getD (offset + 3) 0 <<< 24)

/-- Properties of the live device consulted by the header validator. -/
structure DeviceProps where
  vendorID : Nat
  deviceID : Nat
  pipelineCacheUUID : List Nat

deriving instance DecidableEq for DeviceProps

/-- ThreadedReplayer::validate_pipeline_cache_header (lines 281-331): reject a
blob smaller than 16 + VK_UUID_SIZE bytes, then check the length field, the
version field, vendorID, deviceID and the 16-byte pipelineCacheUUID in turn. -/
def validate_pipeline_cache_header (props : DeviceProps) (blob : List Nat) : Bool :=
  if blob.length < 16 + VK_UUID_SIZE then false
  else if read_le blob 0 ≠ 16 + VK_UUID_SIZE then false
  else if read_le blob 4 ≠ VK_PIPELINE_CACHE_HEADER_VERSION_ONE then false
  else if props.vendorID ≠ read_le blob 8 then false
  else if props.deviceID ≠ read_le blob 12 then false
  else if (blob.drop 16).take VK_UUID_SIZE ≠ props.pipelineCacheUUID then false
  else true

/-- Initial data handed to vkCreatePipelineCache by set_application_info
(lines 351-394): the on-disk blob when it was read, is non-empty and its header
validates; otherwise the cache is created blank. -/
def pipelineCacheInitialData (props : DeviceProps) (on_disk : Option (List Nat)) : List Nat :=
  match on_disk with
  | none => []
  | some blob =>
    if blob.length ≠ 0 ∧ validate_pipeline_cache_header props blob = true then blob else []

/-- Options::num_threads defaults to thread::hardware_concurrency (line 56). -/
def num_threads_default (hardware_concurrency : Nat) : Nat := hardware_concurrency

/-- Thread count computed by main: the --num-threads argument when given,
otherwise the default, then floored at 1 (lines 641 and 658-659). -/
def main_num_threads (cli_num_threads : Option Nat) (hardware_concurrency : Nat) : Nat :=
  let n := cli_num_threads.getD (num_threads_default hardware_concurrency)
  if n < 1 then 1 else n

/-- Worker pool spawned by the ThreadedReplayer constructor (lines 77-79): one
thread per unit of num_worker_threads. -/
def thread_pool (cli_num_threads : Option Nat) (hardware_concurrency : Nat) : List Unit :=
  List.replicate (main_num_threads cli_num_threads hardware_concurrency) ()

/-- State accumulated while a worker processes one work item: the registry slot
(hash_map_entry), the caller-owned output slot, the number of create calls, of
destroy calls and of successful creates so far, the accumulated nanoseconds of
the successful creates, and the hashes logged on failed creates. -/
structure ItemState where
  slot : Option Handle
  output : Option Handle
  creates : Nat
  destroys : Nat
  successes : Nat
  ns : Nat
  logs : List Hash

deriving instance DecidableEq for ItemState

/-- One iteration of the per-item loop in worker_thread (lines 121-143 for
shader modules; lines 149-171 and 177-200 are the same shape for pipelines):
destroy the registry slot if non-null, null it, invoke the create exactly once;
on success store the handle into both the output slot and the registry slot and
accumulate the timed duration; on failure log the hash and leave the slot null.
The create oracle maps the iteration index to none on failure or to the pair of
the created handle and the measured duration on success. -/
def loopIteration (hash : Hash) (create : Nat → Option (Handle × Nat)) (i : Nat)
    (st : ItemState) : ItemState :=
  let st1 := { st with
    destroys := st.destroys + (if st.slot.isSome then 1 else 0)
    slot := none }
  match create i with
  | some hd =>
    { st1 with
      slot := some hd.1
      output := some hd.1
      creates := st1.creates + 1
      successes := st1.successes + 1
      ns := st1.ns + hd.2 }
  | none =>
    { st1 with creates := st1.creates + 1, logs := st1.logs ++ [hash] }

/-- The full per-item loop: loop_count iterations of loopIteration starting
from the registry slot and output slot as the worker finds them. -/
def runWorkItem (hash : Hash) (create : Nat → Option (Handle × Nat))
    (loop_count : Nat) (slot0 out0 : Option Handle) : ItemState :=
  (List.range loop_count).foldl (fun st i => loopIteration hash create i st)
    { slot := slot0, output := out0, creates := 0, destroys := 0, successes := 0,
      ns := 0, logs := [] }

/-- A popped work item, as the worker sees it: its tag, hash, create oracle and
the initial contents of its registry and output slots. -/
structure ItemSpec where
  tag : ResourceTag
  hash : Hash
  create : Nat → Option (Handle × Nat)
  slot0 : Option Handle
  out0 : Option Handle

/-- Worker-side accumulators: the per-item results in completion order, the
completed_count the worker bumps after every item, and the six statistics
atomics fed from the loop bodies (lines 134-135, 162-163, 190-192). -/
structure WorkerState where
  results : List ItemState
  completed_count : Nat
  shader_module_count : Nat
  graphics_pipeline_count : Nat
  compute_pipeline_count : Nat
  shader_module_ns : Nat
  graphics_pipeline_ns : Nat
  compute_pipeline_ns : Nat

deriving instance DecidableEq for WorkerState

/-- WorkerState before any item is processed. -/
def initialWorkerState : WorkerState :=
  { results := [], completed_count := 0, shader_module_count := 0,
    graphics_pipeline_count := 0, compute_pipeline_count := 0,
    shader_module_ns := 0, graphics_pipeline_ns := 0, compute_pipeline_ns := 0 }

/-- Processing of one popped item by worker_thread (lines 117-213): dispatch on
the tag, run the per-item loop for the three deferred categories (the default
case does nothing), then increment completed_count unconditionally. -/
def workerStep (loop_count : Nat) (ws : WorkerState) (it : ItemSpec) : WorkerState :=
  let ws1 :=
    match it.tag with
    | ResourceTag.shader_module =>
      let r := runWorkItem it.hash it.create loop_count it.slot0 it.out0
      { ws with
        results := ws.results ++ [r]
        shader_module_count := ws.shader_module_count + r.successes
        shader_module_ns := ws.shader_module_ns + r.ns }
    | ResourceTag.graphics_pipeline =>
      let r := runWorkItem it.hash it.create loop_count it.slot0 it.out0
      { ws with
        results := ws.results ++ [r]
        graphics_pipeline_count := ws.graphics_pipeline_count + r.successes
        graphics_pipeline_ns := ws.graphics_pipeline_ns + r.ns }
    | ResourceTag.compute_pipeline =>
      let r := runWorkItem it.hash it.create loop_count it.slot0 it.out0
      { ws with
        results := ws.results ++ [r]
        compute_pipeline_count := ws.compute_pipeline_count + r.successes
        compute_pipeline_ns := ws.compute_pipeline_ns + r.ns }
    | _ => ws
  { ws1 with completed_count := ws1.completed_count + 1 }

/-- A worker draining a queue of items in order. -/
def workerRun (loop_count : Nat) (items : List ItemSpec) : WorkerState :=
  items.foldl (workerStep loop_count) initialWorkerState

/-- The per-item result the worker publishes for a deferred item, and none for
a tag the dispatch ignores. -/
def deferredResult (loop_count : Nat) (it : ItemSpec) : Option ItemState :=
  match it.tag with
  | ResourceTag.shader_module =>
    some (runWorkItem it.hash it.create loop_count it.slot0 it.out0)
  | ResourceTag.graphics_pipeline =>
    some (runWorkItem it.hash it.create loop_count it.slot0 it.out0)
  | ResourceTag.compute_pipeline =>
    some (runWorkItem it.hash it.create loop_count it.slot0 it.out0)
  | _ => none

/-- Number of create calls among the first n iterations that succeed. -/
def successfulCreates (create : Nat → Option (Handle × Nat)) (n : Nat) : Nat :=
  ((List.range n).filter (fun i => (create i).isSome)).length

/-- Sum of the measured durations of the successful create calls among the
first n iterations. -/
def successfulNs (create : Nat → Option (Handle × Nat)) (n : Nat) : Nat :=
  ((List.range n).filterMap (fun i => (create i).map Prod.snd)).sum

/-- Atomic events of an interleaved execution of the driver thread and the
worker threads.  Work items are identified by a Nat id; enq records a push of
an item with its category under the queue mutex (queued_count increment), pop
the removal of an item from the queue by a worker, comp the completed_count
increment a worker performs after finishing an item, and barrier a return of
sync_worker_threads on the driver. -/
inductive Step where
  | enq (tag : ResourceTag) (id : Nat)
  | pop (id : Nat)
  | comp (id : Nat)
  | barrier

deriving instance DecidableEq for Step

/-- Item id of an enq step. -/
def Step.enqId : Step → Option Nat
  | Step.enq _ i => some i
  | _ => none

/-- Category tag of an enq step. -/
def Step.enqTag : Step → Option ResourceTag
  | Step.enq t _ => some t
  | _ => none

/-- Item id of a pop step. -/
def Step.popId : Step → Option Nat
  | Step.pop i => some i
  | _ => none

/-- Item id of a comp step. -/
def Step.compId : Step → Option Nat
  | Step.comp i => some i
  | _ => none

/-- Ids pushed in a trace, in push order. -/
def enqueuedIds (t : List Step) : List Nat := t.filterMap Step.enqId

/-- Ids completed in a trace, in completion order. -/
def completedIds (t : List Step) : List Nat := t.filterMap Step.compId

/-- Value of queued_count after a trace. -/
def enqCount (t : List Step) : Nat := (enqueuedIds t).length

/-- Value of completed_count after a trace. -/
def compCount (t : List Step) : Nat := (completedIds t).length

/-- Traces that the mutex and condition-variable discipline of the source can
produce: a pop takes an item previously pushed (lines 113-114), a completion
follows the pop of the same item (line 210), each item is pushed at most once
and completed at most once, and sync_worker_threads returns only once
queued_count equals completed_count (lines 85-87). -/
def ValidTrace (t : List Step) : Prop :=
  (∀ i : Fin t.length, (t.get i).popId.isSome = true →
    ∃ j : Fin t.length, j.1 < i.1 ∧ (t.get j).enqId = (t.get i).popId) ∧
  (∀ i : Fin t.length, (t.get i).compId.isSome = true →
    ∃ j : Fin t.length, j.1 < i.1 ∧ (t.get j).popId = (t.get i).compId) ∧
  (∀ i j : Fin t.length, (t.get i).enqId.isSome = true →
    (t.get i).enqId = (t.get j).enqId → i = j) ∧
  (∀ i j : Fin t.length, (t.get i).compId.isSome = true →
    (t.get i).compId = (t.get j).compId → i = j) ∧
  (∀ i : Fin t.length, t.get i = Step.barrier →
    enqCount (t.take i.1) = compCount (t.take i.1))

instance validTraceDecidable (t : List Step) : Decidable (ValidTrace t) := by
  unfold ValidTrace
  infer_instance

/-- Events on the driver thread: a parse of one archive record of a category
(state_replayer.parse in main, line 713) and a return of sync_worker_threads. -/
inductive DriverEvent where
  | parse (tag : ResourceTag) (hash : Hash)
  | barrier

deriving instance DecidableEq for DriverEvent

/-- Driver events produced while main handles one category: one parse per hash
of the category, then a barrier when the category is RESOURCE_RENDER_PASS
(lines 695-724). -/
def categoryEvents (hs : ResourceTag → List Hash) (tag : ResourceTag) : List DriverEvent :=
  (hs tag).map (DriverEvent.parse tag) ++
  (if tag = ResourceTag.render_pass then [DriverEvent.barrier] else [])

/-- The full driver-side event sequence of main: the playback order categories
in turn, then the final drain barrier (line 727). -/
def driverTrace (hs : ResourceTag → List Hash) : List DriverEvent :=
  (playback_order.map (categoryEvents hs)).flatten ++ [DriverEvent.barrier]

/-- Total number of successful create calls made for the items of one
category across a run. -/
def categorySuccessSum (loop_count : Nat) (tag : ResourceTag) (items : List ItemSpec) : Nat :=
  ((items.filter (fun it => it.tag = tag)).map
    (fun it => successfulCreates it.create loop_count)).sum

/-- Total duration of the successful create calls made for the items of one
category across a run. -/
def categoryNsSum (loop_count : Nat) (tag : ResourceTag) (items : List ItemSpec) : Nat :=
  ((items.filter (fun it => it.tag = tag)).map
    (fun it => successfulNs it.create loop_count)).sum

end Fossilize

namespace Fossilize

/-! Helper lemmas about the enqueue facade and the driver folds. -/

theorem runSamplerEnqueues_processed_aux (records : List (Option Handle × Hash)) :
    ∀ acc : List (Hash × Handle) × List Hash × Nat,
      (records.foldl samplerReplayStep acc).2.2 = acc.2.2 + records.length := by
  induction records with
  | nil => intro acc; simp
  | cons r tl ih =>
    intro acc
    rw [List.foldl_cons, ih]
    simp [samplerReplayStep]
    omega

theorem runGraphicsEnqueues_queue (fg fc : List Hash) (archive : List Hash) :
    ∀ st : ReplayerState,
      (runGraphicsEnqueues fg fc archive st).queue =
        st.queue ++ (archive.filter (graphicsFilterPass fg fc)).map
          (fun h => (ResourceTag.graphics_pipeline, h)) := by
  induction archive with
  | nil => intro st; simp [runGraphicsEnqueues]
  | cons h tl ih =>
    intro st
    rw [runGraphicsEnqueues, List.foldl_cons, ← runGraphicsEnqueues, ih, List.filter_cons]
    by_cases hp : graphicsFilterPass fg fc h = true
    · simp [hp, graphicsEnqueueStep, enqueue_create_graphics_pipeline]
    · simp only [Bool.not_eq_true] at hp
      simp [hp, graphicsEnqueueStep, enqueue_create_graphics_pipeline]

theorem graphicsFilterPass_iff (fg fc : List Hash) (hash : Hash) :
    graphicsFilterPass fg fc hash = true ↔ ((fg = [] ∧ fc = []) ∨ hash ∈ fg) := by
  simp [graphicsFilterPass, List.isEmpty_iff]

theorem computeFilterPass_iff (fg fc : List Hash) (hash : Hash) :
    computeFilterPass fg fc hash = true ↔ ((fg = [] ∧ fc = []) ∨ hash ∈ fc) := by
  simp [computeFilterPass, List.isEmpty_iff]
  tauto

/-- Claim C8: the worker pool always holds exactly the configured number of
threads, where the configuration is the --num-threads value when given,
defaults to hardware_concurrency, and is floored at 1 by main; so at least one
worker thread is created in every invocation, including --num-threads 0 and a
hardware_concurrency of 0. -/
theorem worker_pool_size_floored (cli : Option Nat) (hc : Nat) :
    (thread_pool cli hc).length = main_num_threads cli hc ∧
    1 ≤ (thread_pool cli hc).length ∧
    (∀ n, 0 < n → (thread_pool (some n) hc).length = n) ∧
    (0 < hc → (thread_pool none hc).length = hc) ∧
    (thread_pool (some 0) hc).length = 1 ∧
    (thread_pool none 0).length = 1 := by
  refine ⟨by simp [thread_pool], ?_, ?_, ?_, ?_, ?_⟩
  · simp only [thread_pool, main_num_threads, num_threads_default, List.length_replicate]
    split <;> omega
  · intro n hn
    simp only [thread_pool, main_num_threads, num_threads_default, List.length_replicate,
      Option.getD_some]
    split <;> omega
  · intro hhc
    simp only [thread_pool, main_num_threads, num_threads_default, List.length_replicate,
      Option.getD_none]
    split <;> omega
  · simp [thread_pool, main_num_threads, num_threads_default]
  · simp [thread_pool, main_num_threads, num_threads_default]

theorem worker_pool_size_floored_witness : (thread_pool (some 3) 0).length = 3 :=
  (worker_pool_size_floored (some 3) 0).2.2.1 3 (by decide)

/-- Claim C6: validate_pipeline_cache_header accepts a blob iff the blob is at
least 16 + VK_UUID_SIZE bytes long and its little-endian length field equals
16 + VK_UUID_SIZE, its version field equals 1, its vendor and device fields
equal the live device properties and its 16-byte UUID equals the device
pipelineCacheUUID; and when validation fails the pipeline cache initial data is
blank, so replay proceeds with an empty cache instead of failing. -/
theorem pipeline_cache_header_validation (props : DeviceProps) (blob : List Nat) :
    (validate_pipeline_cache_header props blob = true ↔
      (16 + VK_UUID_SIZE ≤ blob.length ∧
       read_le blob 0 = 16 + VK_UUID_SIZE ∧
       read_le blob 4 = 1 ∧
       read_le blob 8 = props.vendorID ∧
       read_le blob 12 = props.deviceID ∧
       (blob.drop 16).take VK_UUID_SIZE = props.pipelineCacheUUID)) ∧
    (validate_pipeline_cache_header props blob = false →
      pipelineCacheInitialData props (some blob) = []) := by
  constructor
  · unfold validate_pipeline_cache_header
    split_ifs with h1 h2 h3 h4 h5 h6 <;>
      simp_all [VK_PIPELINE_CACHE_HEADER_VERSION_ONE, eq_comm]
  · intro hfail
    simp [pipelineCacheInitialData, hfail]

theorem pipeline_cache_header_validation_witness :
    pipelineCacheInitialData { vendorID := 0, deviceID := 0, pipelineCacheUUID := [] }
      (some [1]) = [] :=
  (pipeline_cache_header_validation
    { vendorID := 0, deviceID := 0, pipelineCacheUUID := [] } [1]).2 (by decide)

/-- Claim C10: every deferred enqueue operation returns true for every input,
including filtered-out hashes; a false return can only come from the trivial
categories. -/
theorem deferred_enqueue_always_returns_true (fg fc : List Hash)
    (st : ReplayerState) (hash : Hash) (out0 : Option Handle) :
    (enqueue_create_shader_module st hash out0).ret = true ∧
    (enqueue_create_graphics_pipeline fg fc st hash out0).ret = true ∧
    (enqueue_create_compute_pipeline fg fc st hash out0).ret = true := by
  refine ⟨rfl, ?_, ?_⟩
  · unfold enqueue_create_graphics_pipeline
    split <;> rfl
  · unfold enqueue_create_compute_pipeline
    split <;> rfl

/-- Claim C9: a trivial-category enqueue with a failing inline create logs the
hash, returns false and leaves the registry map unchanged; with a succeeding
create it stores the handle under the hash and returns true; and the driver
processes every record of a category regardless of these outcomes. -/
theorem trivial_enqueue_error_handling (index : Hash) (m : List (Hash × Handle))
    (out0 : Option Handle) (logs : List Hash) :
    (enqueue_create_sampler none index m out0 logs =
        { ret := false, map := m, output := out0, logs := logs ++ [index] } ∧
      ∀ v, enqueue_create_sampler (some v) index m out0 logs =
        { ret := true, map := mapInsert m index v, output := some v, logs := logs }) ∧
    (enqueue_create_descriptor_set_layout none index m out0 logs =
        { ret := false, map := m, output := out0, logs := logs ++ [index] } ∧
      ∀ v, enqueue_create_descriptor_set_layout (some v) index m out0 logs =
        { ret := true, map := mapInsert m index v, output := some v, logs := logs }) ∧
    (enqueue_create_pipeline_layout none index m out0 logs =
        { ret := false, map := m, output := out0, logs := logs ++ [index] } ∧
      ∀ v, enqueue_create_pipeline_layout (some v) index m out0 logs =
        { ret := true, map := mapInsert m index v, output := some v, logs := logs }) ∧
    (enqueue_create_render_pass none index m out0 logs =
        { ret := false, map := m, output := out0, logs := logs ++ [index] } ∧
      ∀ v, enqueue_create_render_pass (some v) index m out0 logs =
        { ret := true, map := mapInsert m index v, output := some v, logs := logs }) ∧
    (∀ records : List (Option Handle × Hash), ∀ m0 : List (Hash × Handle), ∀ logs0 : List Hash,
      (runSamplerEnqueues records m0 logs0).2.2 = records.length) := by
  refine ⟨⟨rfl, fun v => rfl⟩, ⟨rfl, fun v => rfl⟩, ⟨rfl, fun v => rfl⟩, ⟨rfl, fun v => rfl⟩, ?_⟩
  intro records m0 logs0
  rw [runSamplerEnqueues, runSamplerEnqueues_processed_aux]
  simp

/-- Claim C2: a graphics-pipeline enqueue pushes a work item iff both filter
sets are empty or the hash is in filter_graphics, and symmetrically for
compute; when the predicate is false the output slot is set to the null handle
and nothing is queued or registered; and for a non-empty graphics filter the
queued graphics hashes are exactly the intersection of the filter with the
archive hashes. -/
theorem graphics_compute_filter_semantics (fg fc : List Hash) (st : ReplayerState)
    (hash : Hash) (out0 : Option Handle) :
    ((enqueue_create_graphics_pipeline fg fc st hash out0).state.queue =
        st.queue ++ [(ResourceTag.graphics_pipeline, hash)] ↔
      ((fg = [] ∧ fc = []) ∨ hash ∈ fg)) ∧
    (¬ ((fg = [] ∧ fc = []) ∨ hash ∈ fg) →
      enqueue_create_graphics_pipeline fg fc st hash out0 =
        { ret := true, state := st, output := none }) ∧
    ((enqueue_create_compute_pipeline fg fc st hash out0).state.queue =
        st.queue ++ [(ResourceTag.compute_pipeline, hash)] ↔
      ((fg = [] ∧ fc = []) ∨ hash ∈ fc)) ∧
    (¬ ((fg = [] ∧ fc = []) ∨ hash ∈ fc) →
      enqueue_create_compute_pipeline fg fc st hash out0 =
        { ret := true, state := st, output := none }) ∧
    (∀ archive : List Hash, fg ≠ [] →
      (queueHashesWithTag (runGraphicsEnqueues fg fc archive initialReplayerState).queue
          ResourceTag.graphics_pipeline).toFinset =
        fg.toFinset ∩ archive.toFinset) := by
  refine ⟨?_, ?_, ?_, ?_, ?_⟩
  · rw [← graphicsFilterPass_iff]
    unfold enqueue_create_graphics_pipeline
    constructor
    · intro hq
      by_contra hp
      simp only [Bool.not_eq_true] at hp
      rw [hp] at hq
      simp at hq
    · intro hp
      rw [hp]
      simp
  · intro hp
    rw [← graphicsFilterPass_iff, Bool.not_eq_true] at hp
    unfold enqueue_create_graphics_pipeline
    rw [hp]
    simp
  · rw [← computeFilterPass_iff]
    unfold enqueue_create_compute_pipeline
    constructor
    · intro hq
      by_contra hp
      simp only [Bool.not_eq_true] at hp
      rw [hp] at hq
      simp at hq
    · intro hp
      rw [hp]
      simp
  · intro hp
    rw [← computeFilterPass_iff, Bool.not_eq_true] at hp
    unfold enqueue_create_compute_pipeline
    rw [hp]
    simp
  · intro archive hne
    have hpass : ∀ x : Hash, graphicsFilterPass fg fc x = true ↔ x ∈ fg := by
      intro x
      rw [graphicsFilterPass_iff]
      constructor
      · rintro (⟨hfg, _⟩ | hmem)
        · exact absurd hfg hne
        · exact hmem
      · exact Or.inr
    rw [runGraphicsEnqueues_queue]
    ext x
    simp only [queueHashesWithTag, initialReplayerState, List.nil_append, List.filterMap_map,
      Function.comp, List.mem_toFinset, Finset.mem_inter, List.mem_filterMap, List.mem_filter,
      hpass]
    constructor
    · rintro ⟨a, ⟨ha, haf⟩, hx⟩
      simp only [reduceIte, Option.some_inj] at hx
      subst hx
      exact ⟨haf, ha⟩
    · rintro ⟨hxf, hxa⟩
      exact ⟨x, ⟨hxa, hxf⟩, by simp⟩

theorem graphics_compute_filter_semantics_witness :
    (¬ ((([3] : List Hash) = [] ∧ ([] : List Hash) = []) ∨ (5 : Hash) ∈ ([3] : List Hash))) ∧
    enqueue_create_graphics_pipeline [3] [] initialReplayerState 5 none =
      { ret := true, state := initialReplayerState, output := none } ∧
    (queueHashesWithTag (runGraphicsEnqueues [3] [] [3, 5] initialReplayerState).queue
        ResourceTag.graphics_pipeline).toFinset =
      ([3] : List Hash).toFinset ∩ ([3, 5] : List Hash).toFinset :=
  ⟨by decide,
   (graphics_compute_filter_semantics [3] [] initialReplayerState 5 none).2.1 (by decide),
   (graphics_compute_filter_semantics [3] [] initialReplayerState 5 none).2.2.2.2
     [3, 5] (by decide)⟩

end Fossilize

namespace Fossilize

/-! Helper lemmas about the per-item worker loop. -/

theorem runWorkItem_succ (hash : Hash) (create : Nat → Option (Handle × Nat))
    (n : Nat) (slot0 out0 : Option Handle) :
    runWorkItem hash create (n + 1) slot0 out0 =
      loopIteration hash create n (runWorkItem hash create n slot0 out0) := by
  simp [runWorkItem, List.range_succ]

theorem loopIteration_creates (hash : Hash) (create : Nat → Option (Handle × Nat))
    (i : Nat) (st : ItemState) :
    (loopIteration hash create i st).creates = st.creates + 1 := by
  unfold loopIteration
  cases create i <;> simp

theorem runWorkItem_creates (hash : Hash) (create : Nat → Option (Handle × Nat))
    (n : Nat) (slot0 out0 : Option Handle) :
    (runWorkItem hash create n slot0 out0).creates = n := by
  induction n with
  | zero => rfl
  | succ m ih => rw [runWorkItem_succ, loopIteration_creates, ih]

theorem successfulCreates_succ (create : Nat → Option (Handle × Nat)) (m : Nat) :
    successfulCreates create (m + 1) =
      successfulCreates create m + (if (create m).isSome then 1 else 0) := by
  simp only [successfulCreates, List.range_succ, List.filter_append, List.length_append]
  cases hc : create m <;> simp [hc]

theorem successfulNs_succ (create : Nat → Option (Handle × Nat)) (m : Nat) :
    successfulNs create (m + 1) =
      successfulNs create m + ((create m).map Prod.snd).getD 0 := by
  simp only [successfulNs, List.range_succ, List.filterMap_append, List.sum_append]
  cases hc : create m <;> simp [hc]

theorem runWorkItem_stats (hash : Hash) (create : Nat → Option (Handle × Nat))
    (n : Nat) (slot0 out0 : Option Handle) :
    (runWorkItem hash create n slot0 out0).successes = successfulCreates create n ∧
    (runWorkItem hash create n slot0 out0).ns = successfulNs create n := by
  induction n with
  | zero => exact ⟨rfl, rfl⟩
  | succ m ih =>
    rw [runWorkItem_succ, successfulCreates_succ, successfulNs_succ]
    constructor
    · unfold loopIteration
      cases hc : create m <;> simp [hc, ih.1]
    · unfold loopIteration
      cases hc : create m <;> simp [hc, ih.2]

theorem runWorkItem_all_success (hash : Hash) (create : Nat → Option (Handle × Nat))
    (n : Nat) (out0 : Option Handle)
    (hsucc : ∀ i, i < n → (create i).isSome = true) :
    (runWorkItem hash create n none out0).destroys = n - 1 ∧
    (0 < n →
      (runWorkItem hash create n none out0).slot = (create (n - 1)).map Prod.fst ∧
      (runWorkItem hash create n none out0).output = (create (n - 1)).map Prod.fst) := by
  induction n with
  | zero => exact ⟨rfl, by omega⟩
  | succ m ih =>
    have hs : ∀ i, i < m → (create i).isSome = true := fun i hi => hsucc i (by omega)
    obtain ⟨ihd, ihs⟩ := ih hs
    obtain ⟨hd, hcm⟩ := Option.isSome_iff_exists.mp (hsucc m (by omega))
    rcases Nat.eq_zero_or_pos m with hm | hm
    · subst hm
      rw [runWorkItem_succ]
      unfold loopIteration
      simp [runWorkItem, hcm]
    · obtain ⟨hslot, _⟩ := ihs hm
      have hslot_some : (runWorkItem hash create m none out0).slot.isSome = true := by
        rw [hslot]
        obtain ⟨hd2, hc2⟩ := Option.isSome_iff_exists.mp (hs (m - 1) (by omega))
        simp [hc2]
      rw [runWorkItem_succ]
      unfold loopIteration
      simp only [hcm, hslot_some, if_true]
      refine ⟨by simp; omega, fun _ => by simp [hcm]⟩

end Fossilize

namespace Fossilize

/-! Helper lemmas about a worker draining a queue of items. -/

theorem categorySuccessSum_cons (lc : Nat) (tag : ResourceTag) (it : ItemSpec)
    (tl : List ItemSpec) :
    categorySuccessSum lc tag (it :: tl) =
      (if it.tag = tag then successfulCreates it.create lc else 0) +
        categorySuccessSum lc tag tl := by
  simp only [categorySuccessSum, List.filter_cons]
  by_cases h : it.tag = tag <;> simp [h]

theorem categoryNsSum_cons (lc : Nat) (tag : ResourceTag) (it : ItemSpec)
    (tl : List ItemSpec) :
    categoryNsSum lc tag (it :: tl) =
      (if it.tag = tag then successfulNs it.create lc else 0) + categoryNsSum lc tag tl := by
  simp only [categoryNsSum, List.filter_cons]
  by_cases h : it.tag = tag <;> simp [h]

theorem workerStep_counters (lc : Nat) (ws : WorkerState) (it : ItemSpec) :
    ((workerStep lc ws it).shader_module_count = ws.shader_module_count +
      (if it.tag = ResourceTag.shader_module then successfulCreates it.create lc else 0)) ∧
    ((workerStep lc ws it).graphics_pipeline_count = ws.graphics_pipeline_count +
      (if it.tag = ResourceTag.graphics_pipeline then successfulCreates it.create lc else 0)) ∧
    ((workerStep lc ws it).compute_pipeline_count = ws.compute_pipeline_count +
      (if it.tag = ResourceTag.compute_pipeline then successfulCreates it.create lc else 0)) ∧
    ((workerStep lc ws it).shader_module_ns = ws.shader_module_ns +
      (if it.tag = ResourceTag.shader_module then successfulNs it.create lc else 0)) ∧
    ((workerStep lc ws it).graphics_pipeline_ns = ws.graphics_pipeline_ns +
      (if it.tag = ResourceTag.graphics_pipeline then successfulNs it.create lc else 0)) ∧
    ((workerStep lc ws it).compute_pipeline_ns = ws.compute_pipeline_ns +
      (if it.tag = ResourceTag.compute_pipeline then successfulNs it.create lc else 0)) := by
  obtain ⟨hsucc, hns⟩ := runWorkItem_stats it.hash it.create lc it.slot0 it.out0
  unfold workerStep
  cases htag : it.tag <;> simp [htag, hsucc, hns]

theorem workerRun_counters_aux (lc : Nat) (items : List ItemSpec) :
    ∀ ws : WorkerState,
      ((items.foldl (workerStep lc) ws).shader_module_count =
        ws.shader_module_count + categorySuccessSum lc ResourceTag.shader_module items) ∧
      ((items.foldl (workerStep lc) ws).graphics_pipeline_count =
        ws.graphics_pipeline_count + categorySuccessSum lc ResourceTag.graphics_pipeline items) ∧
      ((items.foldl (workerStep lc) ws).compute_pipeline_count =
        ws.compute_pipeline_count + categorySuccessSum lc ResourceTag.compute_pipeline items) ∧
      ((items.foldl (workerStep lc) ws).shader_module_ns =
        ws.shader_module_ns + categoryNsSum lc ResourceTag.shader_module items) ∧
      ((items.foldl (workerStep lc) ws).graphics_pipeline_ns =
        ws.graphics_pipeline_ns + categoryNsSum lc ResourceTag.graphics_pipeline items) ∧
      ((items.foldl (workerStep lc) ws).compute_pipeline_ns =
        ws.compute_pipeline_ns + categoryNsSum lc ResourceTag.compute_pipeline items) := by
  induction items with
  | nil => intro ws; simp [categorySuccessSum, categoryNsSum]
  | cons it tl ih =>
    intro ws
    rw [List.foldl_cons]
    obtain ⟨h1, h2, h3, h4, h5, h6⟩ := ih (workerStep lc ws it)
    obtain ⟨s1, s2, s3, s4, s5, s6⟩ := workerStep_counters lc ws it
    refine ⟨?_, ?_, ?_, ?_, ?_, ?_⟩
    · rw [h1, s1, categorySuccessSum_cons]; omega
    · rw [h2, s2, categorySuccessSum_cons]; omega
    · rw [h3, s3, categorySuccessSum_cons]; omega
    · rw [h4, s4, categoryNsSum_cons]; omega
    · rw [h5, s5, categoryNsSum_cons]; omega
    · rw [h6, s6, categoryNsSum_cons]; omega

theorem workerStep_completed (lc : Nat) (ws : WorkerState) (it : ItemSpec) :
    (workerStep lc ws it).completed_count = ws.completed_count + 1 := by
  unfold workerStep
  cases htag : it.tag <;> simp [htag]

theorem workerStep_results (lc : Nat) (ws : WorkerState) (it : ItemSpec) :
    (workerStep lc ws it).results =
      ws.results ++ (deferredResult lc it).toList := by
  unfold workerStep deferredResult
  cases htag : it.tag <;> simp [htag]

theorem workerRun_completed_aux (lc : Nat) (items : List ItemSpec) :
    ∀ ws : WorkerState,
      (items.foldl (workerStep lc) ws).completed_count = ws.completed_count + items.length := by
  induction items with
  | nil => intro ws; simp
  | cons it tl ih =>
    intro ws
    rw [List.foldl_cons, ih, workerStep_completed]
    simp
    omega

theorem workerRun_results_aux (lc : Nat) (items : List ItemSpec) :
    ∀ ws : WorkerState,
      (items.foldl (workerStep lc) ws).results =
        ws.results ++ items.filterMap (deferredResult lc) := by
  induction items with
  | nil => intro ws; simp
  | cons it tl ih =>
    intro ws
    rw [List.foldl_cons, ih, workerStep_results, List.filterMap_cons]
    cases hr : deferredResult lc it <;> simp [hr]

theorem runWorkItem_logs_mem (hash : Hash) (create : Nat → Option (Handle × Nat))
    (n : Nat) (slot0 out0 : Option Handle) (i : Nat) (hi : i < n)
    (hf : create i = none) :
    hash ∈ (runWorkItem hash create n slot0 out0).logs := by
  induction n with
  | zero => omega
  | succ m ih =>
    rw [runWorkItem_succ]
    rcases Nat.lt_succ_iff_lt_or_eq.mp hi with h | h
    · have hmem := ih h
      unfold loopIteration
      cases hc : create m <;> simp [hc, hmem]
    · subst h
      unfold loopIteration
      simp [hf]

end Fossilize

namespace Fossilize

/-- Claim C3: the worker performs exactly loop_count iterations on a deferred
item, each iteration destroys a non-null registry slot, nulls it, makes exactly
one create call and on success stores the handle into both the output slot and
the registry slot; for a shader-module item whose slot starts null and whose
creates all succeed there are loop_count create calls, loop_count - 1 destroy
calls, and the final slot and output hold the handle of the last create. -/
theorem work_item_loop_semantics (hash : Hash) (create : Nat → Option (Handle × Nat))
    (loop_count : Nat) (slot0 out0 : Option Handle) :
    (runWorkItem hash create loop_count slot0 out0).creates = loop_count ∧
    (∀ i : Nat, ∀ st : ItemState,
      ((loopIteration hash create i st).destroys =
        st.destroys + (if st.slot.isSome then 1 else 0)) ∧
      (∀ hd : Handle × Nat, create i = some hd →
        loopIteration hash create i st =
          { st with
            slot := some hd.1
            output := some hd.1
            creates := st.creates + 1
            destroys := st.destroys + (if st.slot.isSome then 1 else 0)
            successes := st.successes + 1
            ns := st.ns + hd.2 }) ∧
      (create i = none →
        loopIteration hash create i st =
          { st with
            slot := none
            creates := st.creates + 1
            destroys := st.destroys + (if st.slot.isSome then 1 else 0)
            logs := st.logs ++ [hash] })) ∧
    ((∀ i, i < loop_count → (create i).isSome = true) →
      (runWorkItem hash create loop_count none out0).destroys = loop_count - 1 ∧
      (0 < loop_count →
        (runWorkItem hash create loop_count none out0).slot =
          (create (loop_count - 1)).map Prod.fst ∧
        (runWorkItem hash create loop_count none out0).output =
          (create (loop_count - 1)).map Prod.fst)) := by
  refine ⟨runWorkItem_creates hash create loop_count slot0 out0, ?_, ?_⟩
  · intro i st
    refine ⟨?_, ?_, ?_⟩
    · unfold loopIteration
      cases hc : create i <;> simp [hc]
    · intro hd hc
      simp [loopIteration, hc]
    · intro hc
      simp [loopIteration, hc]
  · intro hsucc
    exact runWorkItem_all_success hash create loop_count out0 hsucc

theorem work_item_loop_semantics_witness :
    (runWorkItem 42 (fun i => some (100 + i, 7)) 3 none none).creates = 3 ∧
    (runWorkItem 42 (fun i => some (100 + i, 7)) 3 none none).destroys = 2 ∧
    (runWorkItem 42 (fun i => some (100 + i, 7)) 3 none none).slot = some 102 := by
  have h := work_item_loop_semantics 42 (fun i => some (100 + i, 7)) 3 none none
  have h2 := h.2.2 (fun i _ => rfl)
  refine ⟨h.1, h2.1, ?_⟩
  rw [(h2.2 (by decide)).1]
  rfl

/-- Claim C5: for every deferred category the reported count equals the number
of successful create calls of that category and the reported nanoseconds equals
the sum of the measured durations of exactly those successful calls; failed
creates contribute to neither. -/
theorem stats_count_successful_creates (loop_count : Nat) (items : List ItemSpec) :
    (workerRun loop_count items).shader_module_count =
      categorySuccessSum loop_count ResourceTag.shader_module items ∧
    (workerRun loop_count items).graphics_pipeline_count =
      categorySuccessSum loop_count ResourceTag.graphics_pipeline items ∧
    (workerRun loop_count items).compute_pipeline_count =
      categorySuccessSum loop_count ResourceTag.compute_pipeline items ∧
    (workerRun loop_count items).shader_module_ns =
      categoryNsSum loop_count ResourceTag.shader_module items ∧
    (workerRun loop_count items).graphics_pipeline_ns =
      categoryNsSum loop_count ResourceTag.graphics_pipeline items ∧
    (workerRun loop_count items).compute_pipeline_ns =
      categoryNsSum loop_count ResourceTag.compute_pipeline items := by
  obtain ⟨h1, h2, h3, h4, h5, h6⟩ := workerRun_counters_aux loop_count items initialWorkerState
  rw [workerRun]
  exact ⟨by rw [h1]; simp [initialWorkerState], by rw [h2]; simp [initialWorkerState],
         by rw [h3]; simp [initialWorkerState], by rw [h4]; simp [initialWorkerState],
         by rw [h5]; simp [initialWorkerState], by rw [h6]; simp [initialWorkerState]⟩

/-- Claim C7: a failed deferred create logs the failing hash, the slot of that
iteration is left null, the create is not retried (the loop still performs
exactly loop_count create calls), the item is still marked completed and
subsequent items are processed normally, each from its own specification. -/
theorem deferred_create_failure_isolation (hash : Hash)
    (create : Nat → Option (Handle × Nat)) (loop_count : Nat)
    (slot0 out0 : Option Handle) (items : List ItemSpec) :
    (∀ i : Nat, ∀ st : ItemState, create i = none →
      (loopIteration hash create i st).slot = none ∧
      (loopIteration hash create i st).logs = st.logs ++ [hash] ∧
      (loopIteration hash create i st).creates = st.creates + 1) ∧
    (runWorkItem hash create loop_count slot0 out0).creates = loop_count ∧
    (∀ i, i < loop_count → create i = none →
      hash ∈ (runWorkItem hash create loop_count slot0 out0).logs) ∧
    (workerRun loop_count items).completed_count = items.length ∧
    (workerRun loop_count items).results = items.filterMap (deferredResult loop_count) := by
  refine ⟨?_, runWorkItem_creates hash create loop_count slot0 out0, ?_, ?_, ?_⟩
  · intro i st hc
    refine ⟨?_, ?_, ?_⟩ <;> simp [loopIteration, hc]
  · intro i hi hc
    exact runWorkItem_logs_mem hash create loop_count slot0 out0 i hi hc
  · rw [workerRun, workerRun_completed_aux]
    simp [initialWorkerState]
  · rw [workerRun, workerRun_results_aux]
    simp [initialWorkerState]

theorem deferred_create_failure_isolation_witness :
    (9 : Hash) ∈ (runWorkItem 9 (fun _ => none) 2 none none).logs ∧
    (workerRun 2 [ItemSpec.mk ResourceTag.shader_module 9 (fun _ => none)
        none none]).completed_count = 1 := by
  have h := deferred_create_failure_isolation 9 (fun _ => none) 2 none none
    [ItemSpec.mk ResourceTag.shader_module 9 (fun _ => none) none none]
  exact ⟨h.2.2.1 0 (by decide) rfl, h.2.2.2.1⟩

end Fossilize

namespace Fossilize

/-! Helper lemmas for the trace model of the shared queue. -/

theorem nodup_filterMap_of_unique {α β : Type} (l : List α) (f : α → Option β)
    (h : ∀ i j : Fin l.length, (f (l.get i)).isSome = true →
      f (l.get i) = f (l.get j) → i = j) :
    (l.filterMap f).Nodup := by
  induction l with
  | nil => simp
  | cons a tl ih =>
    have htl : ∀ i j : Fin tl.length, (f (tl.get i)).isSome = true →
        f (tl.get i) = f (tl.get j) → i = j := by
      intro i j hi hij
      have hs := h i.succ j.succ hi hij
      exact Fin.succ_injective _ hs
    rw [List.filterMap_cons]
    cases hfa : f a with
    | none => exact ih htl
    | some b =>
      refine List.nodup_cons.mpr ⟨?_, ih htl⟩
      intro hmem
      obtain ⟨x, hx, hfx⟩ := List.mem_filterMap.mp hmem
      obtain ⟨k, hk⟩ := List.mem_iff_get.mp hx
      have h0s : (f ((a :: tl).get ⟨0, Nat.succ_pos tl.length⟩)).isSome = true := by
        show (f a).isSome = true
        rw [hfa]
        rfl
      have heq : f ((a :: tl).get ⟨0, Nat.succ_pos tl.length⟩) = f ((a :: tl).get k.succ) := by
        show f a = f (tl.get k)
        rw [hfa, hk, hfx]
      have h0k := h ⟨0, Nat.succ_pos tl.length⟩ k.succ h0s heq
      have hval : (0 : Nat) = k.1 + 1 := congrArg Fin.val h0k
      omega

theorem take_get_eq (t : List Step) (n : Nat) (i : Fin (t.take n).length) :
    (t.take n).get i = t.get ⟨i.1, lt_of_lt_of_le i.2 (by simp)⟩ := by
  simp only [List.get_eq_getElem]
  exact List.getElem_take t

theorem validTrace_enq_nodup_take (t : List Step) (hv : ValidTrace t) (n : Nat) :
    (enqueuedIds (t.take n)).Nodup := by
  refine nodup_filterMap_of_unique (t.take n) Step.enqId ?_
  intro i j hi hij
  rw [take_get_eq] at hi hij
  rw [take_get_eq t n j] at hij
  have h2 := hv.2.2.1 _ _ hi hij
  have hval : i.1 = j.1 := by
    have h3 := congrArg Fin.val h2
    simpa using h3
  exact Fin.ext hval

theorem validTrace_comp_nodup_take (t : List Step) (hv : ValidTrace t) (n : Nat) :
    (completedIds (t.take n)).Nodup := by
  refine nodup_filterMap_of_unique (t.take n) Step.compId ?_
  intro i j hi hij
  rw [take_get_eq] at hi hij
  rw [take_get_eq t n j] at hij
  have h2 := hv.2.2.2.1 _ _ hi hij
  have hval : i.1 = j.1 := by
    have h3 := congrArg Fin.val h2
    simpa using h3
  exact Fin.ext hval

theorem completedIds_take_subset (t : List Step) (hv : ValidTrace t) (n : Nat) :
    ∀ id : Nat, id ∈ completedIds (t.take n) → id ∈ enqueuedIds (t.take n) := by
  intro id hid
  obtain ⟨s, hs, hcs⟩ := List.mem_filterMap.mp hid
  obtain ⟨c0, hc0⟩ := List.mem_iff_get.mp hs
  have hclen : c0.1 < t.length := lt_of_lt_of_le c0.2 (by simp)
  have hcn : c0.1 < n := lt_of_lt_of_le c0.2 (by simp)
  have hcg : t.get ⟨c0.1, hclen⟩ = s := by rw [← take_get_eq t n c0, hc0]
  have hcsome : (t.get ⟨c0.1, hclen⟩).compId.isSome = true := by rw [hcg, hcs]; rfl
  obtain ⟨p, hplt, hpid⟩ := hv.2.1 ⟨c0.1, hclen⟩ hcsome
  have hpsome : (t.get p).popId.isSome = true := by
    rw [hpid, hcg, hcs]
    rfl
  obtain ⟨e, helt, heid⟩ := hv.1 p hpsome
  have heid2 : (t.get e).enqId = some id := by rw [heid, hpid, hcg, hcs]
  have hplt2 : p.1 < c0.1 := hplt
  have hen : e.1 < n := by omega
  have hmem : t.get e ∈ t.take n := by
    have hgl : (t.take n).get ⟨e.1, by simp; omega⟩ = t.get e := by
      rw [take_get_eq]
    rw [← hgl]
    exact List.get_mem _ _ _
  exact List.mem_filterMap.mpr ⟨t.get e, hmem, heid2⟩

theorem compCount_take_le (t : List Step) (hv : ValidTrace t) (n : Nat) :
    compCount (t.take n) ≤ enqCount (t.take n) := by
  have hnc := validTrace_comp_nodup_take t hv n
  have hne := validTrace_enq_nodup_take t hv n
  have hsub : (completedIds (t.take n)).toFinset ⊆ (enqueuedIds (t.take n)).toFinset := by
    intro x hx
    rw [List.mem_toFinset] at hx ⊢
    exact completedIds_take_subset t hv n x hx
  have hcard := Finset.card_le_card hsub
  rwa [List.toFinset_card_of_nodup hnc, List.toFinset_card_of_nodup hne] at hcard

theorem enqueued_completed_of_counts_eq (t : List Step) (hv : ValidTrace t) (n : Nat)
    (hcnt : enqCount (t.take n) = compCount (t.take n)) :
    ∀ id : Nat, id ∈ enqueuedIds (t.take n) → id ∈ completedIds (t.take n) := by
  have hnc := validTrace_comp_nodup_take t hv n
  have hne := validTrace_enq_nodup_take t hv n
  have hsub : (completedIds (t.take n)).toFinset ⊆ (enqueuedIds (t.take n)).toFinset := by
    intro x hx
    rw [List.mem_toFinset] at hx ⊢
    exact completedIds_take_subset t hv n x hx
  have hset : (completedIds (t.take n)).toFinset = (enqueuedIds (t.take n)).toFinset := by
    refine Finset.eq_of_subset_of_card_le hsub ?_
    rw [List.toFinset_card_of_nodup hnc, List.toFinset_card_of_nodup hne]
    exact le_of_eq hcnt
  intro id hid
  have : id ∈ (enqueuedIds (t.take n)).toFinset := List.mem_toFinset.mpr hid
  rw [← hset] at this
  exact List.mem_toFinset.mp this

theorem counts_take_mono (t : List Step) (n m : Nat) (h : n ≤ m) :
    enqCount (t.take n) ≤ enqCount (t.take m) ∧
    compCount (t.take n) ≤ compCount (t.take m) := by
  have hsub : List.Sublist (t.take n) (t.take m) := by
    have heq : (t.take m).take n = t.take n := by
      rw [List.take_take, Nat.min_eq_left h]
    rw [← heq]
    exact List.take_sublist n (t.take m)
  exact ⟨List.Sublist.length_le (hsub.filterMap Step.enqId),
         List.Sublist.length_le (hsub.filterMap Step.compId)⟩

end Fossilize

namespace Fossilize

theorem Step.compId_comp (s : Step) (i : Nat) (h : s.compId = some i) : s = Step.comp i := by
  cases s with
  | comp j =>
    simp only [Step.compId, Option.some_inj] at h
    rw [h]
  | enq tg id => simp [Step.compId] at h
  | pop j => simp [Step.compId] at h
  | barrier => simp [Step.compId] at h

/-- Claim C4: along every valid trace, queued_count and completed_count are
monotone in the trace prefix (they only ever increase), queued_count is at
least completed_count at every prefix, and at every return of
sync_worker_threads the two counters are equal. -/
theorem queue_counter_invariants (t : List Step) (hv : ValidTrace t) :
    (∀ n m : Nat, n ≤ m →
      enqCount (t.take n) ≤ enqCount (t.take m) ∧
      compCount (t.take n) ≤ compCount (t.take m)) ∧
    (∀ n : Nat, compCount (t.take n) ≤ enqCount (t.take n)) ∧
    (∀ i : Fin t.length, t.get i = Step.barrier →
      enqCount (t.take i.1) = compCount (t.take i.1)) :=
  ⟨fun n m h => counts_take_mono t n m h,
   fun n => compCount_take_le t hv n,
   hv.2.2.2.2⟩

theorem queue_counter_invariants_witness :
    compCount (([Step.enq ResourceTag.shader_module 0, Step.pop 0, Step.comp 0,
        Step.barrier] : List Step).take 2) ≤
      enqCount (([Step.enq ResourceTag.shader_module 0, Step.pop 0, Step.comp 0,
        Step.barrier] : List Step).take 2) :=
  (queue_counter_invariants [Step.enq ResourceTag.shader_module 0, Step.pop 0, Step.comp 0,
      Step.barrier] (by decide)).2.1 2

/-- Claim C1: the driver issues a barrier immediately after the RenderPass
category completes and before any GraphicsPipeline or ComputePipeline record
is parsed, and a final barrier after the last category (first conjunct, an
exact decomposition of the driver event sequence); consequently, in every
valid trace whose shader-module pushes all precede that barrier and whose
pipeline pushes all follow it, no pipeline work item is popped before every
shader-module work item enqueued earlier has completed (second conjunct). -/
theorem driver_barrier_separates_shader_modules_from_pipelines
    (hs : ResourceTag → List Hash) (t : List Step) (hv : ValidTrace t)
    (b : Fin t.length) (hb : t.get b = Step.barrier)
    (hshader : ∀ k : Fin t.length,
      (t.get k).enqTag = some ResourceTag.shader_module → k.1 < b.1)
    (hpipe : ∀ j : Fin t.length,
      ((t.get j).enqTag = some ResourceTag.graphics_pipeline ∨
       (t.get j).enqTag = some ResourceTag.compute_pipeline) → b.1 < j.1) :
    (driverTrace hs =
      (hs ResourceTag.application_info).map (DriverEvent.parse ResourceTag.application_info) ++
      ((hs ResourceTag.shader_module).map (DriverEvent.parse ResourceTag.shader_module) ++
      ((hs ResourceTag.sampler).map (DriverEvent.parse ResourceTag.sampler) ++
      ((hs ResourceTag.descriptor_set_layout).map
          (DriverEvent.parse ResourceTag.descriptor_set_layout) ++
      ((hs ResourceTag.pipeline_layout).map (DriverEvent.parse ResourceTag.pipeline_layout) ++
      ((hs ResourceTag.render_pass).map (DriverEvent.parse ResourceTag.render_pass) ++
      (DriverEvent.barrier ::
      ((hs ResourceTag.graphics_pipeline).map (DriverEvent.parse ResourceTag.graphics_pipeline) ++
      ((hs ResourceTag.compute_pipeline).map (DriverEvent.parse ResourceTag.compute_pipeline) ++
      [DriverEvent.barrier]))))))))) ∧
    (∀ p : Fin t.length, ∀ idp : Nat, t.get p = Step.pop idp →
      (∃ j : Fin t.length,
        (t.get j).enqId = some idp ∧
        ((t.get j).enqTag = some ResourceTag.graphics_pipeline ∨
         (t.get j).enqTag = some ResourceTag.compute_pipeline)) →
      ∀ k : Fin t.length, ∀ id : Nat, t.get k = Step.enq ResourceTag.shader_module id →
        ∃ c : Fin t.length, c.1 < p.1 ∧ t.get c = Step.comp id) := by
  constructor
  · simp [driverTrace, playback_order, categoryEvents, List.append_assoc]
  · rintro p idp hp ⟨j, hjid, hjtag⟩ k id hk
    have hbj : b.1 < j.1 := hpipe j hjtag
    have hpsome : (t.get p).popId.isSome = true := by rw [hp]; rfl
    obtain ⟨e, helt, heid⟩ := hv.1 p hpsome
    have hjsome : (t.get j).enqId.isSome = true := by rw [hjid]; rfl
    have hje : j = e := by
      apply hv.2.2.1 j e hjsome
      rw [hjid, heid, hp]
      rfl
    have hbp : b.1 < p.1 := by
      have hval : j.1 = e.1 := congrArg Fin.val hje
      omega
    have hktag : (t.get k).enqTag = some ResourceTag.shader_module := by rw [hk]; rfl
    have hkb : k.1 < b.1 := hshader k hktag
    have hcnt := hv.2.2.2.2 b hb
    have hidenq : id ∈ enqueuedIds (t.take b.1) := by
      refine List.mem_filterMap.mpr ⟨t.get k, ?_, by rw [hk]; rfl⟩
      have hgl : (t.take b.1).get ⟨k.1, by simp; omega⟩ = t.get k := by
        rw [take_get_eq]
      rw [← hgl]
      exact List.get_mem _ _ _
    have hidcomp := enqueued_completed_of_counts_eq t hv b.1 hcnt id hidenq
    obtain ⟨s, hsmem, hsc⟩ := List.mem_filterMap.mp hidcomp
    obtain ⟨c0, hc0⟩ := List.mem_iff_get.mp hsmem
    have hclen : c0.1 < t.length := lt_of_lt_of_le c0.2 (by simp)
    have hcb : c0.1 < b.1 := lt_of_lt_of_le c0.2 (by simp)
    refine ⟨⟨c0.1, hclen⟩, lt_trans hcb hbp, ?_⟩
    have hcg : t.get ⟨c0.1, hclen⟩ = s := by rw [← take_get_eq t b.1 c0, hc0]
    rw [hcg]
    exact Step.compId_comp s id hsc

theorem driver_barrier_separates_shader_modules_from_pipelines_witness :
    ∃ c : Fin ([Step.enq ResourceTag.shader_module 0, Step.pop 0, Step.comp 0, Step.barrier,
        Step.enq ResourceTag.graphics_pipeline 1, Step.pop 1, Step.comp 1,
        Step.barrier] : List Step).length,
      c.1 < 5 ∧
      ([Step.enq ResourceTag.shader_module 0, Step.pop 0, Step.comp 0, Step.barrier,
        Step.enq ResourceTag.graphics_pipeline 1, Step.pop 1, Step.comp 1,
        Step.barrier] : List Step).get c = Step.comp 0 := by
  have h := driver_barrier_separates_shader_modules_from_pipelines (fun _ => [])
    [Step.enq ResourceTag.shader_module 0, Step.pop 0, Step.comp 0, Step.barrier,
     Step.enq ResourceTag.graphics_pipeline 1, Step.pop 1, Step.comp 1, Step.barrier]
    (by decide) ⟨3, by decide⟩ (by decide) (by decide) (by decide)
  exact h.2 ⟨5, by decide⟩ 1 rfl ⟨⟨4, by decide⟩, rfl, Or.inl rfl⟩ ⟨0, by decide⟩ 0 rfl

end Fossilize
